import Mathlib

/-!
Verification of the Planscape graph-state reconciliation core.

The definitions below are a shallow embedding of the TypeScript source:
`lib/diff.ts` (snapshot model and diff engine), `app/page.tsx`
(orchestrator: history stack, undo, hasChanges recomputation, check
initiation, the `flagNode` and `createGraph` action handlers) and the
dagre layout adapters.  JavaScript `Set`s are embedded as
first-occurrence-deduplicated lists (insertion order preserved),
`Object.fromEntries` maps as last-binding-wins lookups, and the mutable
React state as an explicit `AppState` record threaded through the
handlers.
-/

/-- Severity status used by node annotations (`"ok" | "warning" | "error"`). -/
inductive Status where
  | ok
  | warning
  | error
deriving DecidableEq, Repr

/-- The four visual node styles of `page.tsx`: the plain `nodeStyle` and the
`nodeStyleOk` / `nodeStyleWarning` / `nodeStyleError` variants. -/
inductive NodeStyle where
  | plain
  | ok
  | warning
  | error
deriving DecidableEq, Repr

/-- One entry of the `nodeAnnotations` record: resolved status plus the
accumulated reason list. -/
structure Ann where
  status : Status
  reasons : List String
deriving DecidableEq, Repr

/-- Snapshot node (`{id, label}`) from `lib/diff.ts`. -/
structure SnapNode where
  id : String
  label : String
deriving DecidableEq, Repr

/-- Snapshot edge (`{source, target}`) from `lib/diff.ts`. -/
structure SnapEdge where
  source : String
  target : String
deriving DecidableEq, Repr

/-- `GraphSnapshot` from `lib/diff.ts`: the minimal structural serialization. -/
structure GraphSnapshot where
  nodes : List SnapNode
  edges : List SnapEdge
deriving DecidableEq, Repr

/-- Live React-Flow node as used by `page.tsx`: id, displayed label, the
visual style variant stored in `data.nodeStyle`, and the 2D position. -/
structure FlowNode where
  id : String
  label : String
  style : NodeStyle
  pos : ℚ × ℚ
deriving DecidableEq, Repr

/-- Live React-Flow edge: id plus source/target endpoints (visual attributes
such as stroke and marker are constant in the source and omitted). -/
structure FlowEdge where
  id : String
  source : String
  target : String
deriving DecidableEq, Repr

/-- Raw node received from the agent's `createGraph` tool call. -/
structure RawNode where
  id : String
  label : String
deriving DecidableEq, Repr

/-- Raw edge received from the agent's `createGraph` tool call. -/
structure RawEdge where
  source : String
  target : String
deriving DecidableEq, Repr

/-- One entry of the undo history: the full visual graph `{nodes, edges}`. -/
structure HistEntry where
  nodes : List FlowNode
  edges : List FlowEdge
deriving DecidableEq, Repr

/-- First-occurrence deduplication worker: `seen` is the accumulator of ids
already emitted.  Models JavaScript `Set` construction (insertion order,
duplicates dropped). -/
def dedupAux (seen : List String) : List String → List String
  | [] => []
  | x :: xs => if seen.contains x then dedupAux seen xs else x :: dedupAux (x :: seen) xs

/-- `new Set(list)` iterated in insertion order: keeps the first occurrence of
every element. -/
def dedupFirst (l : List String) : List String := dedupAux [] l

/-- `Object.fromEntries(nodes.map(n => [n.id, n.label]))[i]`: later entries win,
so look up the label of the LAST node carrying the id. -/
def labelFor (ns : List SnapNode) (i : String) : Option String :=
  (ns.reverse.find? (fun n => n.id == i)).map (fun n => n.label)

/-- `snapshotFromFlow` from `lib/diff.ts`: drop position and style, keep
id/label and source/target. -/
def snapshotFromFlow (nodes : List FlowNode) (edges : List FlowEdge) : GraphSnapshot :=
  { nodes := nodes.map (fun n => { id := n.id, label := n.label })
    edges := edges.map (fun e => { source := e.source, target := e.target }) }

/-- `edgeKey` from `diffGraphs`: the template string `` `${e.source}→${e.target}` ``. -/
def edgeKey (e : SnapEdge) : String := e.source ++ "→" ++ e.target

/-- `diffGraphs` from `lib/diff.ts`: deleted nodes (over the previous node-id
set), added nodes (over the current node-id set), removed edges (over the
previous edge array), added edges (over the current edge array), each rendered
as a human-readable change statement. -/
def diffGraphs (prev curr : GraphSnapshot) : List String :=
  let prevNodeIds := dedupFirst (prev.nodes.map (fun n => n.id))
  let currNodeIds := dedupFirst (curr.nodes.map (fun n => n.id))
  let deleted := (prevNodeIds.filter (fun i => !(currNodeIds.contains i))).map
    (fun i => "Deleted node: \"" ++ ((labelFor prev.nodes i).getD "undefined") ++ "\"")
  let added := (currNodeIds.filter (fun i => !(prevNodeIds.contains i))).map
    (fun i => "Added node: \"" ++ ((labelFor curr.nodes i).getD "undefined") ++ "\"")
  let prevEdgeKeys := dedupFirst (prev.edges.map edgeKey)
  let currEdgeKeys := dedupFirst (curr.edges.map edgeKey)
  let removed := (prev.edges.filter (fun e => !(currEdgeKeys.contains (edgeKey e)))).map
    (fun e => "Removed dependency: \"" ++ ((labelFor prev.nodes e.source).getD e.source)
      ++ "\" → \"" ++ ((labelFor prev.nodes e.target).getD e.target) ++ "\"")
  let addedE := (curr.edges.filter (fun e => !(prevEdgeKeys.contains (edgeKey e)))).map
    (fun e => "Added dependency: \"" ++ ((labelFor curr.nodes e.source).getD e.source)
      ++ "\" → \"" ++ ((labelFor curr.nodes e.target).getD e.target) ++ "\"")
  deleted ++ added ++ removed ++ addedE

/-- `statusPriority` from the `flagNode` handler: `error: 3, warning: 2, ok: 1`. -/
def statusPriority : Status → Nat
  | .error => 3
  | .warning => 2
  | .ok => 1

/-- The conflict-resolution step of `flagNode`:
`statusPriority[incoming] > statusPriority[existing] ? incoming : existing`. -/
def maxStatus (existing incoming : Status) : Status :=
  if statusPriority incoming > statusPriority existing then incoming else existing

/-- `styleForStatus` from the `flagNode` handler. -/
def styleForStatus : Status → NodeStyle
  | .error => .error
  | .warning => .warning
  | .ok => .ok

/-- Read `prev[nodeId]` from the annotation record (embedded as an
association list keyed by node id). -/
def alistGet (m : List (String × Ann)) (k : String) : Option Ann :=
  (m.find? (fun p => p.1 == k)).map (fun p => p.2)

/-- Write `{...prev, [nodeId]: v}`: overwrite the binding in place if the key
exists, otherwise append it. -/
def alistSet (m : List (String × Ann)) (k : String) (v : Ann) : List (String × Ann) :=
  if m.any (fun p => p.1 == k) then
    m.map (fun p => if p.1 == k then (k, v) else p)
  else
    m ++ [(k, v)]

/-- The mutable React state of `Home` in `page.tsx` that the claims are about:
live graph, confirmed baseline, `hasChanges` / `checking` flags, the insight
lists, the per-cycle summary, the annotation record, the error banner text and
the undo history. -/
structure AppState where
  nodes : List FlowNode
  edges : List FlowEdge
  confirmed : Option GraphSnapshot
  hasChanges : Bool
  checking : Bool
  warnings : List String
  suggestions : List String
  checkSummary : String
  annotations : List (String × Ann)
  error : Option String
  history : List HistEntry
deriving DecidableEq, Repr

/-- The `flagNode` action handler (`page.tsx` lines 228-272): accumulate the
annotation, resolving conflicting statuses towards the highest priority and
appending the reason, then restyle the flagged node to the resolved status. -/
def flagNode (st : AppState) (nodeId : String) (status : Status) (reason : String) : AppState :=
  let existing := alistGet st.annotations nodeId
  let resolved := match existing with
    | some e => maxStatus e.status status
    | none => status
  let reasons := match existing with
    | some e => e.reasons ++ [reason]
    | none => [reason]
  { st with
    annotations := alistSet st.annotations nodeId { status := resolved, reasons := reasons }
    nodes := st.nodes.map (fun n =>
      if n.id == nodeId then { n with style := styleForStatus resolved } else n) }

/-- Fold a sequence of `flagNode(n, status, reason)` calls for one node over
the state, in arrival order. -/
def runFlagCalls (st : AppState) (n : String) (calls : List (Status × String)) : AppState :=
  calls.foldl (fun s c => flagNode s n c.1 c.2) st

/-- `pushHistory` (`page.tsx` lines 95-98):
`historyRef.current = [...historyRef.current.slice(-29), {nodes, edges}]` —
keep the 29 most recent entries and append the new one. -/
def pushHistory (h : List HistEntry) (entry : HistEntry) : List HistEntry :=
  h.drop (h.length - 29) ++ [entry]

/-- `handleUndo` (`page.tsx` lines 100-107): no-op on an empty stack,
otherwise pop the most recent entry and restore its nodes and edges. -/
def handleUndo (st : AppState) : AppState :=
  match st.history.getLast? with
  | none => st
  | some last =>
    { st with history := st.history.dropLast, nodes := last.nodes, edges := last.edges }

/-- The `hasChanges` recomputation effect (`page.tsx` lines 146-151): bail out
when there is no confirmed baseline or the live graph is empty, otherwise set
`hasChanges` to whether the diff against the baseline is non-empty. -/
def recomputeHasChanges (confirmed : Option GraphSnapshot) (nodes : List FlowNode)
    (edges : List FlowEdge) (prev : Bool) : Bool :=
  match confirmed with
  | none => prev
  | some conf =>
    if nodes.isEmpty then prev
    else !(diffGraphs conf (snapshotFromFlow nodes edges)).isEmpty

/-- The synchronous prefix of `handleCheckChanges` (`page.tsx` lines 407-422),
up to the `await`: refuse when there is no confirmed baseline or the diff is
empty; otherwise enter `checking`, clear the error, insight lists, annotation
record and summary, and reset every node style to the default — returning the
cleared state together with the snapshot captured at initiation. -/
def beginCheck (st : AppState) : Option (AppState × GraphSnapshot) :=
  match st.confirmed with
  | none => none
  | some conf =>
    let current := snapshotFromFlow st.nodes st.edges
    if (diffGraphs conf current).isEmpty then none
    else some
      ({ st with
          checking := true
          error := none
          warnings := []
          suggestions := []
          annotations := []
          checkSummary := ""
          nodes := st.nodes.map (fun n => { n with style := NodeStyle.plain }) },
        current)

/-- The continuation of `handleCheckChanges` after the `await`: on success the
confirmed baseline becomes the snapshot captured at initiation and
`hasChanges` is cleared; if `appendMessage` threw, the error banner is set and
`checking` is dropped, leaving the baseline untouched. -/
def finishCheck (st : AppState) (current : GraphSnapshot) (sendFails : Bool) : AppState :=
  if sendFails then
    { st with error := some "Something went wrong.", checking := false }
  else
    { st with confirmed := some current, hasChanges := false }

/-- `handleCheckChanges` in full, parametrized by the edits the user makes to
the live graph while the agent interaction is in flight (`midEdit`) and by
whether the interaction fails outright (`sendFails`). -/
def handleCheckChanges (st : AppState)
    (midEdit : List FlowNode × List FlowEdge → List FlowNode × List FlowEdge)
    (sendFails : Bool) : AppState :=
  match beginCheck st with
  | none => st
  | some (st1, current) =>
    let live := midEdit (st1.nodes, st1.edges)
    finishCheck { st1 with nodes := live.1, edges := live.2 } current sendFails

/-- The user-facing check trigger: the insight-panel button is rendered with
`disabled = !hasChanges || checking`, so `handleCheckChanges` only runs when
`hasChanges` holds and no check is in flight. -/
def attemptCheck (st : AppState)
    (midEdit : List FlowNode × List FlowEdge → List FlowNode × List FlowEdge)
    (sendFails : Bool) : AppState :=
  if st.hasChanges && !st.checking then handleCheckChanges st midEdit sendFails else st

/-- The `createGraph` action handler (`page.tsx` lines 198-226), parametrized
by the external dagre layout (`applyDagreLayout`): build flow nodes/edges from
the raw tool-call payload, lay them out, push the previously displayed graph
onto the history, replace the live graph, clear the insight lists and
`hasChanges`, and set the confirmed baseline to the snapshot of the new
graph. -/
def createGraph (st : AppState)
    (layout : List FlowNode → List FlowEdge → List FlowNode)
    (rawNodes : List RawNode) (rawEdges : List RawEdge) : AppState :=
  let flowNodes := rawNodes.map (fun n =>
    { id := n.id, label := n.label, style := NodeStyle.plain, pos := ((0 : ℚ), (0 : ℚ)) })
  let flowEdges := rawEdges.map (fun e =>
    { id := e.source ++ "-" ++ e.target, source := e.source, target := e.target })
  let laid := layout flowNodes flowEdges
  { st with
    history := pushHistory st.history { nodes := st.nodes, edges := st.edges }
    nodes := laid
    edges := flowEdges
    warnings := []
    suggestions := []
    hasChanges := false
    confirmed := some (snapshotFromFlow laid flowEdges) }

/-- The 585×135 `applyDagreLayout` variant, parametrized by the center-point
coordinates dagre computes for each node id: the adapter emits
`{x: x - 292, y: y - 67}`. -/
def applyDagreLayout585 (centers : String → ℚ × ℚ) (nodes : List FlowNode) : List FlowNode :=
  nodes.map (fun n => { n with pos := ((centers n.id).1 - 292, (centers n.id).2 - 67) })

/-- The 390×90 `applyDagreLayout` variant: the adapter emits
`{x: x - 195, y: y - 45}`. -/
def applyDagreLayout390 (centers : String → ℚ × ℚ) (nodes : List FlowNode) : List FlowNode :=
  nodes.map (fun n => { n with pos := ((centers n.id).1 - 195, (centers n.id).2 - 45) })

/-- Concrete flow node used by the example states. -/
def nodeA : FlowNode := { id := "A", label := "A", style := NodeStyle.plain, pos := (0, 0) }

/-- Concrete flow node used by the example states. -/
def nodeB : FlowNode := { id := "B", label := "B", style := NodeStyle.plain, pos := (0, 0) }

/-- The pristine application state: empty graph, no baseline, nothing pending. -/
def emptyAppState : AppState :=
  { nodes := [], edges := [], confirmed := none, hasChanges := false, checking := false,
    warnings := [], suggestions := [], checkSummary := "", annotations := [], error := none,
    history := [] }

/-- An example state in which a check can be initiated: the baseline holds only
node `A`, the live graph holds `A` and `B` (a non-empty diff), stale insight
and annotation data from a previous cycle is still present. -/
def checkReadyState : AppState :=
  { nodes := [nodeA, nodeB], edges := [], confirmed := some ⟨[⟨"A", "A"⟩], []⟩,
    hasChanges := true, checking := false, warnings := ["w"], suggestions := ["s"],
    checkSummary := "old", annotations := [("A", ⟨Status.ok, ["x"]⟩)], error := some "e",
    history := [] }

/-- The state `beginCheck` produces from `checkReadyState`: checking, all
per-cycle data cleared, node styles reset. -/
def clearedCheckState : AppState :=
  { nodes := [nodeA, nodeB], edges := [], confirmed := some ⟨[⟨"A", "A"⟩], []⟩,
    hasChanges := true, checking := true, warnings := [], suggestions := [],
    checkSummary := "", annotations := [], error := none, history := [] }

/-- An example state with one undo entry available. -/
def undoReadyState : AppState :=
  { nodes := [nodeA, nodeB], edges := [], confirmed := some ⟨[⟨"A", "A"⟩], []⟩,
    hasChanges := true, checking := false, warnings := ["w"], suggestions := [],
    checkSummary := "", annotations := [("A", ⟨Status.ok, ["x"]⟩)], error := none,
    history := [{ nodes := [nodeA], edges := [] }] }

theorem mem_of_mem_dedupAux {x : String} :
    ∀ (seen l : List String), x ∈ dedupAux seen l → x ∈ l := by
  intro seen l
  induction l generalizing seen with
  | nil => simp [dedupAux]
  | cons y ys ih =>
    simp only [dedupAux]
    split
    · intro h; exact List.mem_cons_of_mem _ (ih _ h)
    · intro h
      rcases List.mem_cons.mp h with h | h
      · exact h ▸ List.mem_cons_self _ _
      · exact List.mem_cons_of_mem _ (ih _ h)

theorem mem_dedupAux_of_mem {x : String} :
    ∀ (seen l : List String), x ∈ l → x ∉ seen → x ∈ dedupAux seen l := by
  intro seen l
  induction l generalizing seen with
  | nil => simp
  | cons y ys ih =>
    intro hmem hseen
    simp only [dedupAux]
    rcases List.mem_cons.mp hmem with rfl | h
    · split
      · rename_i hc
        exact absurd (by simpa using hc) hseen
      · exact List.mem_cons_self _ _
    · split
      · exact ih _ h hseen
      · by_cases hxy : x = y
        · exact hxy ▸ List.mem_cons_self _ _
        · refine List.mem_cons_of_mem _ (ih _ h ?_)
          intro hx
          rcases List.mem_cons.mp hx with hx | hx
          · exact hxy hx
          · exact hseen hx

theorem mem_dedupFirst {x : String} {l : List String} : x ∈ dedupFirst l ↔ x ∈ l :=
  ⟨mem_of_mem_dedupAux [] l, fun h => mem_dedupAux_of_mem [] l h (by simp)⟩

theorem contains_dedupFirst (l : List String) (a : String) :
    (dedupFirst l).contains a = l.contains a := by
  by_cases h : a ∈ l
  · simp [mem_dedupFirst.mpr h, h]
  · have h' : a ∉ dedupFirst l := fun hc => h (mem_dedupFirst.mp hc)
    simp [h, h']

/-- Characterization of an empty diff: both node-id sets and both edge-key
sets must coincide. -/
theorem diffGraphs_eq_nil_iff (A B : GraphSnapshot) :
    diffGraphs A B = [] ↔
      ((∀ i ∈ A.nodes.map (fun n => n.id), i ∈ B.nodes.map (fun n => n.id)) ∧
       (∀ i ∈ B.nodes.map (fun n => n.id), i ∈ A.nodes.map (fun n => n.id)) ∧
       (∀ e ∈ A.edges, edgeKey e ∈ B.edges.map edgeKey) ∧
       (∀ e ∈ B.edges, edgeKey e ∈ A.edges.map edgeKey)) := by
  simp only [diffGraphs, List.append_eq_nil, List.map_eq_nil_iff, List.filter_eq_nil_iff,
    Bool.not_eq_true', Bool.ne_false_iff, contains_dedupFirst, and_assoc]
  constructor
  · rintro ⟨h1, h2, h3, h4⟩
    refine ⟨?_, ?_, ?_, ?_⟩
    · intro i hi
      simpa using h1 i (mem_dedupFirst.mpr hi)
    · intro i hi
      simpa using h2 i (mem_dedupFirst.mpr hi)
    · intro e he
      simpa using h3 e he
    · intro e he
      simpa using h4 e he
  · rintro ⟨h1, h2, h3, h4⟩
    refine ⟨?_, ?_, ?_, ?_⟩
    · intro i hi
      simpa using h1 i (mem_dedupFirst.mp hi)
    · intro i hi
      simpa using h2 i (mem_dedupFirst.mp hi)
    · intro e he
      simpa using h3 e he
    · intro e he
      simpa using h4 e he

theorem diffGraphs_self (A : GraphSnapshot) : diffGraphs A A = [] := by
  rw [diffGraphs_eq_nil_iff]
  exact ⟨fun i hi => hi, fun i hi => hi,
    fun e he => List.mem_map_of_mem _ he, fun e he => List.mem_map_of_mem _ he⟩

theorem maxStatus_ok_left (s : Status) : maxStatus Status.ok s = s := by
  cases s <;> decide

theorem maxStatus_left_swap (z x y : Status) :
    maxStatus (maxStatus z x) y = maxStatus (maxStatus z y) x := by
  cases z <;> cases x <;> cases y <;> decide

theorem statusPriority_le_maxStatus (a b : Status) :
    statusPriority a ≤ statusPriority (maxStatus a b) ∧
      statusPriority b ≤ statusPriority (maxStatus a b) := by
  cases a <;> cases b <;> decide

theorem maxStatus_eq_or (a b : Status) : maxStatus a b = a ∨ maxStatus a b = b := by
  cases a <;> cases b <;> decide

theorem foldl_maxStatus_mem (l : List Status) (s : Status) :
    l.foldl maxStatus s = s ∨ l.foldl maxStatus s ∈ l := by
  induction l generalizing s with
  | nil => exact Or.inl rfl
  | cons b bs ih =>
    rcases ih (maxStatus s b) with h | h
    · rcases maxStatus_eq_or s b with h' | h'
      · exact Or.inl (by rw [List.foldl_cons, h, h'])
      · exact Or.inr (by rw [List.foldl_cons, h, h']; exact List.mem_cons_self _ _)
    · exact Or.inr (List.mem_cons_of_mem _ (by rw [List.foldl_cons]; exact h))

theorem le_foldl_maxStatus (l : List Status) (s : Status) :
    statusPriority s ≤ statusPriority (l.foldl maxStatus s) ∧
      ∀ x ∈ l, statusPriority x ≤ statusPriority (l.foldl maxStatus s) := by
  induction l generalizing s with
  | nil => exact ⟨le_refl _, by simp⟩
  | cons b bs ih =>
    obtain ⟨ih1, ih2⟩ := ih (maxStatus s b)
    obtain ⟨hs, hb⟩ := statusPriority_le_maxStatus s b
    refine ⟨le_trans hs (by simpa using ih1), ?_⟩
    intro x hx
    rcases List.mem_cons.mp hx with rfl | hx
    · exact le_trans hb (by simpa using ih1)
    · simpa using ih2 x hx

theorem foldl_maxStatus_perm {l l' : List Status} (p : l.Perm l') (s : Status) :
    l.foldl maxStatus s = l'.foldl maxStatus s :=
  p.foldl_eq' (fun x _ y _ z => maxStatus_left_swap z x y) s

theorem flagNode_annotations_single (st : AppState) (n : String) (c : Status × String)
    (s : Status) (rs : List String) (h : st.annotations = [(n, ⟨s, rs⟩)]) :
    (flagNode st n c.1 c.2).annotations = [(n, ⟨maxStatus s c.1, rs ++ [c.2]⟩)] := by
  simp [flagNode, alistGet, alistSet, h, List.find?]

theorem flagNode_annotations_empty (st : AppState) (n : String) (c : Status × String)
    (h : st.annotations = []) :
    (flagNode st n c.1 c.2).annotations = [(n, ⟨c.1, [c.2]⟩)] := by
  simp [flagNode, alistGet, alistSet, h]

theorem runFlagCalls_single (calls : List (Status × String)) :
    ∀ (st : AppState) (n : String) (s : Status) (rs : List String),
      st.annotations = [(n, ⟨s, rs⟩)] →
      (runFlagCalls st n calls).annotations
        = [(n, ⟨(calls.map (fun c => c.1)).foldl maxStatus s,
            rs ++ calls.map (fun c => c.2)⟩)] := by
  induction calls with
  | nil =>
    intro st n s rs h
    simpa [runFlagCalls] using h
  | cons c cs ih =>
    intro st n s rs h
    have hst := flagNode_annotations_single st n c s rs h
    have := ih (flagNode st n c.1 c.2) n (maxStatus s c.1) (rs ++ [c.2]) hst
    simpa [runFlagCalls, List.foldl_cons] using this

theorem runFlagCalls_from_empty (st : AppState) (n : String) (c : Status × String)
    (cs : List (Status × String)) (h : st.annotations = []) :
    (runFlagCalls st n (c :: cs)).annotations
      = [(n, ⟨(cs.map (fun x => x.1)).foldl maxStatus c.1, c.2 :: cs.map (fun x => x.2)⟩)] := by
  have hst := flagNode_annotations_empty st n c h
  have := runFlagCalls_single cs (flagNode st n c.1 c.2) n c.1 [c.2] hst
  simpa [runFlagCalls, List.foldl_cons] using this

/-- C1: `diffGraphs` always emits its change statements in exactly four
phases — deleted nodes (iterating the previous snapshot's node order), added
nodes (current's node order), removed edges (previous's edge order), added
edges (current's edge order) — with the exact string forms
`Deleted node: "<label>"`, `Added node: "<label>"`,
`Removed dependency: "<src>" → "<tgt>"` and `Added dependency: "<src>" → "<tgt>"`;
and on previous `{A,B}` with edge `A→B` versus current `{A,B,C}` with edges
`A→B, B→C` it yields exactly
`["Added node: \"C\"", "Added dependency: \"B\" → \"C\""]`. -/
theorem diffGraphs_four_phases (p c : GraphSnapshot) :
    diffGraphs p c =
      ((dedupFirst (p.nodes.map (fun n => n.id))).filter
          (fun i => !((dedupFirst (c.nodes.map (fun n => n.id))).contains i))).map
        (fun i => "Deleted node: \"" ++ ((labelFor p.nodes i).getD "undefined") ++ "\"")
      ++ ((dedupFirst (c.nodes.map (fun n => n.id))).filter
          (fun i => !((dedupFirst (p.nodes.map (fun n => n.id))).contains i))).map
        (fun i => "Added node: \"" ++ ((labelFor c.nodes i).getD "undefined") ++ "\"")
      ++ (p.edges.filter
          (fun e => !((dedupFirst (c.edges.map edgeKey)).contains (edgeKey e)))).map
        (fun e => "Removed dependency: \"" ++ ((labelFor p.nodes e.source).getD e.source)
          ++ "\" → \"" ++ ((labelFor p.nodes e.target).getD e.target) ++ "\"")
      ++ (c.edges.filter
          (fun e => !((dedupFirst (p.edges.map edgeKey)).contains (edgeKey e)))).map
        (fun e => "Added dependency: \"" ++ ((labelFor c.nodes e.source).getD e.source)
          ++ "\" → \"" ++ ((labelFor c.nodes e.target).getD e.target) ++ "\"")
    ∧ diffGraphs ⟨[⟨"A", "A"⟩, ⟨"B", "B"⟩], [⟨"A", "B"⟩]⟩
        ⟨[⟨"A", "A"⟩, ⟨"B", "B"⟩, ⟨"C", "C"⟩], [⟨"A", "B"⟩, ⟨"B", "C"⟩]⟩
        = ["Added node: \"C\"", "Added dependency: \"B\" → \"C\""] :=
  ⟨rfl, by decide⟩

/-- C5 counterexample: two snapshots with identical node-id sets whose diff is
nevertheless non-empty (the current snapshot has an extra edge), refuting
"`diff(A, B)` is empty iff `A` and `B` have identical node-id sets". -/
theorem diffGraphs_nodeIds_not_sufficient :
    (GraphSnapshot.nodes ⟨[⟨"A", "A"⟩], []⟩).map (fun n => n.id)
      = (GraphSnapshot.nodes ⟨[⟨"A", "A"⟩], [⟨"A", "A"⟩]⟩).map (fun n => n.id)
    ∧ diffGraphs ⟨[⟨"A", "A"⟩], []⟩ ⟨[⟨"A", "A"⟩], [⟨"A", "A"⟩]⟩ ≠ [] := by
  decide

/-- C5 (amended): `diffGraphs A A` is always empty; `diffGraphs A B` is empty
iff `A` and `B` have identical node-id sets AND identical edge-key sets;
labels play no role in emptiness — relabeling every node in place produces an
empty diff. -/
theorem diffGraphs_empty_iff (A B : GraphSnapshot) :
    diffGraphs A A = []
    ∧ (diffGraphs A B = [] ↔
        ((∀ i ∈ A.nodes.map (fun n => n.id), i ∈ B.nodes.map (fun n => n.id)) ∧
         (∀ i ∈ B.nodes.map (fun n => n.id), i ∈ A.nodes.map (fun n => n.id)) ∧
         (∀ e ∈ A.edges, edgeKey e ∈ B.edges.map edgeKey) ∧
         (∀ e ∈ B.edges, edgeKey e ∈ A.edges.map edgeKey)))
    ∧ ∀ relabel : String → String,
        diffGraphs A ⟨A.nodes.map (fun n => ⟨n.id, relabel n.label⟩), A.edges⟩ = [] := by
  refine ⟨diffGraphs_self A, diffGraphs_eq_nil_iff A B, ?_⟩
  intro relabel
  rw [diffGraphs_eq_nil_iff]
  refine ⟨?_, ?_, fun e he => List.mem_map_of_mem _ he, fun e he => List.mem_map_of_mem _ he⟩
  · intro i hi
    simpa [List.map_map, Function.comp] using hi
  · intro i hi
    simpa [List.map_map, Function.comp] using hi

/-- C4 counterexample: with a confirmed baseline holding node `A`, deleting
the last live node leaves `hasChanges` at its prior value `false` even though
the diff against the baseline is non-empty — the recompute effect bails out on
an empty live graph. -/
theorem recomputeHasChanges_empty_counterexample :
    recomputeHasChanges (some ⟨[⟨"A", "A"⟩], []⟩) [] [] false = false
    ∧ diffGraphs ⟨[⟨"A", "A"⟩], []⟩ (snapshotFromFlow [] []) ≠ [] := by
  decide

/-- C4 (amended): while a confirmed baseline exists, the recompute effect sets
`hasChanges` to "diff against the baseline is non-empty" after every edit that
leaves the live graph non-empty; position-only moves never affect it; bringing
a non-empty live graph back equal to the baseline resets it to `false`; but an
edit that empties the live graph leaves `hasChanges` at its previous value. -/
theorem recomputeHasChanges_spec (conf : GraphSnapshot) (ns : List FlowNode)
    (es : List FlowEdge) (prev : Bool) :
    (ns ≠ [] → recomputeHasChanges (some conf) ns es prev
        = !(diffGraphs conf (snapshotFromFlow ns es)).isEmpty)
    ∧ (∀ f : FlowNode → ℚ × ℚ,
        recomputeHasChanges (some conf) (ns.map (fun n => { n with pos := f n })) es prev
          = recomputeHasChanges (some conf) ns es prev)
    ∧ (ns ≠ [] → snapshotFromFlow ns es = conf →
        recomputeHasChanges (some conf) ns es prev = false)
    ∧ recomputeHasChanges (some conf) [] es prev = prev := by
  have hsnap : ∀ f : FlowNode → ℚ × ℚ,
      snapshotFromFlow (ns.map (fun n => { n with pos := f n })) es
        = snapshotFromFlow ns es := by
    intro f
    simp [snapshotFromFlow, List.map_map, Function.comp]
  refine ⟨?_, ?_, ?_, rfl⟩
  · intro h
    have : ns.isEmpty = false := by simpa [List.isEmpty_iff] using h
    simp [recomputeHasChanges, this]
  · intro f
    have : (ns.map (fun n => { n with pos := f n })).isEmpty = ns.isEmpty := by
      cases ns <;> rfl
    simp [recomputeHasChanges, this, hsnap f]
  · intro h he
    have : ns.isEmpty = false := by simpa [List.isEmpty_iff] using h
    simp [recomputeHasChanges, this, he, diffGraphs_self]

/-- C4 witness: concrete instances of the amended recompute behavior — an
unchanged non-empty graph equal to its baseline yields `false`, and a
position-only move leaves the recomputation unchanged. -/
theorem recomputeHasChanges_spec_witness :
    recomputeHasChanges (some (snapshotFromFlow [nodeA] [])) [nodeA] [] true = false
    ∧ recomputeHasChanges (some ⟨[⟨"A", "A"⟩], []⟩)
        ([nodeA].map (fun n => { n with pos := ((5 : ℚ), (7 : ℚ)) })) [] false
      = recomputeHasChanges (some ⟨[⟨"A", "A"⟩], []⟩) [nodeA] [] false :=
  ⟨(recomputeHasChanges_spec (snapshotFromFlow [nodeA] []) [nodeA] [] true).2.2.1
      (by decide) rfl,
    (recomputeHasChanges_spec ⟨[⟨"A", "A"⟩], []⟩ [nodeA] [] false).2.1
      (fun _ => ((5 : ℚ), (7 : ℚ)))⟩

/-- C9 counterexample: the 585×135 layout adapter maps a dagre center of
`(0, 0)` to `(-292, -67)`, not to the claimed `(0 - 585/2, 0 - 135/2) =
(-292.5, -67.5)`. -/
theorem applyDagreLayout585_not_half :
    (applyDagreLayout585 (fun _ => ((0 : ℚ), (0 : ℚ))) [nodeA]).map (fun n => n.pos)
      = [((-292 : ℚ), (-67 : ℚ))]
    ∧ ((-292 : ℚ), (-67 : ℚ)) ≠ ((0 : ℚ) - 585 / 2, (0 : ℚ) - 135 / 2) := by
  constructor
  · simp [applyDagreLayout585, nodeA]
  · norm_num [Prod.ext_iff]

/-- C9 (amended): the 390×90 layout variant converts dagre's center-point
coordinates to top-left coordinates by subtracting exactly half the configured
box (195 = 390/2, 45 = 90/2); the 585×135 variant subtracts the whole-pixel
values (292, 67) — half the box rounded down — which differ from the exact
halves 292.5 and 67.5. -/
theorem applyDagreLayout_offsets (centers : String → ℚ × ℚ) (nodes : List FlowNode) :
    (applyDagreLayout390 centers nodes).map (fun n => n.pos)
      = nodes.map (fun n => ((centers n.id).1 - 195, (centers n.id).2 - 45))
    ∧ (195 : ℚ) = 390 / 2 ∧ (45 : ℚ) = 90 / 2
    ∧ (applyDagreLayout390 centers nodes).map (fun n => n.id) = nodes.map (fun n => n.id)
    ∧ (applyDagreLayout585 centers nodes).map (fun n => n.pos)
      = nodes.map (fun n => ((centers n.id).1 - 292, (centers n.id).2 - 67))
    ∧ (applyDagreLayout585 centers nodes).map (fun n => n.id) = nodes.map (fun n => n.id)
    ∧ (292 : ℚ) ≠ 585 / 2 ∧ (67 : ℚ) ≠ 135 / 2 := by
  refine ⟨?_, by norm_num, by norm_num, ?_, ?_, ?_, by norm_num, by norm_num⟩ <;>
    simp [applyDagreLayout390, applyDagreLayout585, List.map_map, Function.comp]

/-- C2: for any non-empty sequence of `flagNode(n, status, reason)` calls in
one check cycle (annotation record initially empty), the node's resolved
status is a maximum-severity status among the statuses seen, the reason list
is exactly all reason strings in arrival order with none dropped, and under
any permutation of the calls the resolved status is unchanged (with the
reasons following the permuted arrival order). -/
theorem flagNode_max_severity (st : AppState) (n : String)
    (calls : List (Status × String)) (h0 : st.annotations = []) (hne : calls ≠ []) :
    ∃ resolved : Status,
      alistGet (runFlagCalls st n calls).annotations n
          = some ⟨resolved, calls.map (fun c => c.2)⟩
      ∧ resolved ∈ calls.map (fun c => c.1)
      ∧ (∀ s ∈ calls.map (fun c => c.1), statusPriority s ≤ statusPriority resolved)
      ∧ ∀ calls' : List (Status × String), calls.Perm calls' →
          alistGet (runFlagCalls st n calls').annotations n
            = some ⟨resolved, calls'.map (fun c => c.2)⟩ := by
  obtain ⟨c, cs, rfl⟩ := List.exists_cons_of_ne_nil hne
  refine ⟨(cs.map (fun x => x.1)).foldl maxStatus c.1, ?_, ?_, ?_, ?_⟩
  · rw [runFlagCalls_from_empty st n c cs h0]
    simp [alistGet]
  · rcases foldl_maxStatus_mem (cs.map (fun x => x.1)) c.1 with h | h
    · rw [h]
      simp
    · simp only [List.map_cons]
      exact List.mem_cons_of_mem _ h
  · intro s hs
    obtain ⟨h1, h2⟩ := le_foldl_maxStatus (cs.map (fun x => x.1)) c.1
    rw [List.map_cons] at hs
    rcases List.mem_cons.mp hs with rfl | hx
    · exact h1
    · exact h2 s hx
  · intro calls' hp
    have hne' : calls' ≠ [] := by
      intro h
      rw [h] at hp
      exact List.cons_ne_nil c cs hp.eq_nil
    obtain ⟨c', cs', rfl⟩ := List.exists_cons_of_ne_nil hne'
    rw [runFlagCalls_from_empty st n c' cs' h0]
    have hfold : ((c :: cs).map (fun x => x.1)).foldl maxStatus Status.ok
        = ((c' :: cs').map (fun x => x.1)).foldl maxStatus Status.ok :=
      foldl_maxStatus_perm (hp.map (fun x => x.1)) Status.ok
    simp only [List.map_cons, List.foldl_cons, maxStatus_ok_left] at hfold
    simp [alistGet, hfold]

/-- C2 witness: the spec's example — `flagNode(n,"warning","r1")`, then
`flagNode(n,"error","r2")`, then `flagNode(n,"ok","r3")` yields resolved
status `error` with reasons `["r1","r2","r3"]`. -/
theorem flagNode_max_severity_witness :
    alistGet (runFlagCalls emptyAppState "n"
        [(Status.warning, "r1"), (Status.error, "r2"), (Status.ok, "r3")]).annotations "n"
      = some ⟨Status.error, ["r1", "r2", "r3"]⟩ := by
  obtain ⟨r, h1, _h2, h3, _h4⟩ := flagNode_max_severity emptyAppState "n"
    [(Status.warning, "r1"), (Status.error, "r2"), (Status.ok, "r3")] rfl (by decide)
  have hr : r = Status.error := by
    have he := h3 Status.error (by decide)
    cases r <;> simp_all [statusPriority]
  rw [hr] at h1
  simpa using h1

/-- C3: for every check cycle, a successful cycle replaces the confirmed
baseline with the snapshot captured at the moment the check was initiated —
not one taken at completion, so edits made while the check was in flight land
in the live graph but are folded under the new baseline without being
diffed — while an outright agent-interaction failure retains the previous
confirmed baseline unchanged. -/
theorem checkCycle_baseline (st : AppState) (conf : GraphSnapshot)
    (midEdit : List FlowNode × List FlowEdge → List FlowNode × List FlowEdge)
    (hc : st.confirmed = some conf)
    (hd : diffGraphs conf (snapshotFromFlow st.nodes st.edges) ≠ []) :
    (handleCheckChanges st midEdit false).confirmed
        = some (snapshotFromFlow st.nodes st.edges)
    ∧ (handleCheckChanges st midEdit false).nodes
        = (midEdit (st.nodes.map (fun n => { n with style := NodeStyle.plain }), st.edges)).1
    ∧ (handleCheckChanges st midEdit true).confirmed = st.confirmed := by
  have hne : (diffGraphs conf (snapshotFromFlow st.nodes st.edges)).isEmpty = false := by
    simpa [List.isEmpty_iff] using hd
  refine ⟨?_, ?_, ?_⟩ <;>
    simp [handleCheckChanges, beginCheck, finishCheck, hc, hne]

/-- C3 witness: a concrete cycle in which the user adds a node while the check
is in flight — on success the baseline is the initiation snapshot `{A, B}`
(the mid-flight node is absent from it), and on failure the baseline stays
`{A}`. -/
theorem checkCycle_baseline_witness :
    (handleCheckChanges checkReadyState (fun le => (le.1 ++ [nodeA], le.2)) false).confirmed
        = some (snapshotFromFlow checkReadyState.nodes checkReadyState.edges)
    ∧ (handleCheckChanges checkReadyState (fun le => (le.1 ++ [nodeA], le.2)) true).confirmed
        = checkReadyState.confirmed := by
  obtain ⟨h1, _h2, h3⟩ := checkCycle_baseline checkReadyState ⟨[⟨"A", "A"⟩], []⟩
    (fun le => (le.1 ++ [nodeA], le.2)) rfl (by decide)
  exact ⟨h1, h3⟩

/-- C6: a check can only be initiated when `hasChanges` holds and no check is
already in flight (the panel button is disabled otherwise); a missing baseline
or a zero-length diff is silently refused with no error and no state change;
and at initiation the annotation record, the warning/suggestion lists and the
summary are cleared and every node style is reset to default before any agent
annotation arrives. -/
theorem checkInitiation_gate (st : AppState)
    (midEdit : List FlowNode × List FlowEdge → List FlowNode × List FlowEdge)
    (fails : Bool) :
    (st.hasChanges = false ∨ st.checking = true → attemptCheck st midEdit fails = st)
    ∧ (st.confirmed = none → attemptCheck st midEdit fails = st)
    ∧ (∀ conf, st.confirmed = some conf →
        diffGraphs conf (snapshotFromFlow st.nodes st.edges) = [] →
        attemptCheck st midEdit fails = st)
    ∧ (∀ st1 cur, beginCheck st = some (st1, cur) →
        st1.annotations = [] ∧ st1.warnings = [] ∧ st1.suggestions = []
          ∧ st1.checkSummary = "" ∧ st1.checking = true
          ∧ ∀ n ∈ st1.nodes, n.style = NodeStyle.plain) := by
  refine ⟨?_, ?_, ?_, ?_⟩
  · rintro (h | h) <;> simp [attemptCheck, h]
  · intro h
    unfold attemptCheck
    split
    · simp [handleCheckChanges, beginCheck, h]
    · rfl
  · intro conf hconf hdiff
    have he : (diffGraphs conf (snapshotFromFlow st.nodes st.edges)).isEmpty = true := by
      simp [List.isEmpty_iff, hdiff]
    unfold attemptCheck
    split
    · simp [handleCheckChanges, beginCheck, hconf, he]
    · rfl
  · intro st1 cur h
    cases hconf : st.confirmed with
    | none => simp [beginCheck, hconf] at h
    | some conf =>
      by_cases he : (diffGraphs conf (snapshotFromFlow st.nodes st.edges)).isEmpty = true
      · simp [beginCheck, hconf, he] at h
      · have he' : (diffGraphs conf (snapshotFromFlow st.nodes st.edges)).isEmpty = false :=
          Bool.eq_false_iff.mpr he
        simp only [beginCheck, hconf, he', Bool.false_eq_true, if_false,
          Option.some.injEq, Prod.mk.injEq] at h
        obtain ⟨h1, -⟩ := h
        subst h1
        refine ⟨rfl, rfl, rfl, rfl, rfl, ?_⟩
        intro n hn
        obtain ⟨m, -, rfl⟩ := List.mem_map.mp hn
        rfl

/-- C6 witness: with no changes pending the trigger is a no-op leaving the
state untouched, and from the concrete check-ready state the initiation
produces exactly the cleared checking state. -/
theorem checkInitiation_gate_witness :
    attemptCheck emptyAppState (fun le => le) false = emptyAppState
    ∧ clearedCheckState.annotations = [] ∧ clearedCheckState.warnings = []
    ∧ clearedCheckState.suggestions = [] ∧ clearedCheckState.checkSummary = ""
    ∧ clearedCheckState.checking = true := by
  have h4 := (checkInitiation_gate checkReadyState (fun le => le) false).2.2.2
    clearedCheckState ⟨[⟨"A", "A"⟩, ⟨"B", "B"⟩], []⟩ (by decide)
  exact ⟨(checkInitiation_gate emptyAppState (fun le => le) false).1 (Or.inl rfl),
    h4.1, h4.2.1, h4.2.2.1, h4.2.2.2.1, h4.2.2.2.2.1⟩

/-- C7: whenever the history stack is non-empty, `handleUndo` restores the
most recent full visual snapshot (nodes with positions and styles, and edges)
verbatim as the live graph, pops it from the stack, and leaves the confirmed
baseline, the annotation record and the insight lists unchanged. -/
theorem handleUndo_restores (st : AppState) (last : HistEntry)
    (h : st.history.getLast? = some last) :
    (handleUndo st).nodes = last.nodes
    ∧ (handleUndo st).edges = last.edges
    ∧ (handleUndo st).history = st.history.dropLast
    ∧ (handleUndo st).confirmed = st.confirmed
    ∧ (handleUndo st).annotations = st.annotations
    ∧ (handleUndo st).warnings = st.warnings
    ∧ (handleUndo st).suggestions = st.suggestions
    ∧ (handleUndo st).checkSummary = st.checkSummary := by
  simp [handleUndo, h]

/-- C7 witness: undoing the concrete one-entry state restores the stored
graph and leaves baseline, annotations and insights as they were. -/
theorem handleUndo_restores_witness :
    (handleUndo undoReadyState).nodes = [nodeA]
    ∧ (handleUndo undoReadyState).confirmed = undoReadyState.confirmed
    ∧ (handleUndo undoReadyState).annotations = undoReadyState.annotations
    ∧ (handleUndo undoReadyState).warnings = undoReadyState.warnings := by
  obtain ⟨h1, _h2, _h3, h4, h5, h6, -⟩ :=
    handleUndo_restores undoReadyState { nodes := [nodeA], edges := [] } rfl
  exact ⟨h1, h4, h5, h6⟩

/-- C8: every `pushHistory` keeps at most the 29 most recent prior entries
plus the new one — the result never exceeds 30 entries, ends with the new
entry, and its remaining prefix is a suffix of the prior stack of length
`min 29 (prior length)` (the oldest entries are silently dropped) — and
`handleUndo` on an empty stack is a no-op. -/
theorem pushHistory_bound :
    (∀ (h : List HistEntry) (s : HistEntry),
      (pushHistory h s).length ≤ 30
      ∧ (pushHistory h s).getLast? = some s
      ∧ (pushHistory h s).dropLast.length = min h.length 29
      ∧ (pushHistory h s).dropLast.IsSuffix h)
    ∧ ∀ st : AppState, st.history = [] → handleUndo st = st := by
  constructor
  · intro h s
    refine ⟨?_, ?_, ?_, ?_⟩
    · simp only [pushHistory, List.length_append, List.length_drop, List.length_cons,
        List.length_nil]
      omega
    · simp [pushHistory]
    · simp only [pushHistory, List.dropLast_concat, List.length_drop]
      omega
    · simp only [pushHistory, List.dropLast_concat]
      exact List.drop_suffix _ _
  · intro st h
    simp [handleUndo, h]

/-- C8 witness: pushing onto an empty stack yields a single-entry stack
ending in the new entry, and undo on the empty-state stack is a no-op. -/
theorem pushHistory_bound_witness :
    (pushHistory [] { nodes := [nodeA], edges := [] }).length ≤ 30
    ∧ (pushHistory [] { nodes := [nodeA], edges := [] }).getLast?
        = some { nodes := [nodeA], edges := [] }
    ∧ handleUndo emptyAppState = emptyAppState :=
  ⟨(pushHistory_bound.1 [] { nodes := [nodeA], edges := [] }).1,
    (pushHistory_bound.1 [] { nodes := [nodeA], edges := [] }).2.1,
    pushHistory_bound.2 emptyAppState rfl⟩

/-- C10: on every successful graph-construction response, `createGraph`
pushes the previously displayed full visual graph onto the history stack
before replacing the live nodes and edges, so a single undo immediately after
a generate restores the pre-generation graph. -/
theorem createGraph_pushes_history (st : AppState)
    (layout : List FlowNode → List FlowEdge → List FlowNode)
    (rn : List RawNode) (re : List RawEdge) :
    (createGraph st layout rn re).history.getLast?
        = some { nodes := st.nodes, edges := st.edges }
    ∧ (handleUndo (createGraph st layout rn re)).nodes = st.nodes
    ∧ (handleUndo (createGraph st layout rn re)).edges = st.edges := by
  have hl : (createGraph st layout rn re).history.getLast?
      = some { nodes := st.nodes, edges := st.edges } := by
    show (pushHistory st.history { nodes := st.nodes, edges := st.edges }).getLast? = _
    simp [pushHistory]
  exact ⟨hl, by simp [handleUndo, hl], by simp [handleUndo, hl]⟩
